import Mathlib

/-!
Verification of the RAG utility module (`src/utils.py`) of the Icyco
retrieval-augmented-generation repository.

The Python module is a thin orchestration layer over hosted services
(Pinecone, the PDF loader, the embedding model, the LLM).  We embed the
module shallowly: pure text transformations become Lean functions on
`List Char`; the Pinecone provider is an explicit state record whose
external operations may fail with an injected `PyError`; the potentially
non-terminating readiness poll is modelled with explicit fuel (with
`none` marking "still polling when the fuel ran out"); third-party
behaviour that is not part of the repository (the text splitter, the
`str.format` placeholder substitution, the RetrievalQA chain execution)
is modelled separately and marked as such in its doc comment.
-/

set_option maxRecDepth 100000

/-- Errors raised by Python code in the model.  `attributeError` is what
`time.sleep` raises because line 1 of `utils.py` binds `time` to
`datetime.time` (a class with no `sleep` attribute); the other
constructors stand for failures of external dependencies. -/
inductive PyError where
  | attributeError (msg : String)
  | apiError (msg : String)
  | pdfError (msg : String)
deriving DecidableEq

instance exceptDecEq {ε α : Type} [DecidableEq ε] [DecidableEq α] :
    DecidableEq (Except ε α) := fun x y =>
  match x, y with
  | .ok a, .ok b =>
    if h : a = b then isTrue (by rw [h]) else
      isFalse (fun hc => h (by cases hc; rfl))
  | .error a, .error b =>
    if h : a = b then isTrue (by rw [h]) else
      isFalse (fun hc => h (by cases hc; rfl))
  | .ok _, .error _ => isFalse (fun hc => Except.noConfusion hc)
  | .error _, .ok _ => isFalse (fun hc => Except.noConfusion hc)

/-! ## Whitespace normalization (`clean_text`, utils.py lines 149-151)

`clean_text` is `re.sub(r"\s+", " ", text).strip()`.  We model the
whitespace class over the ASCII characters matched by Python's `\s`. -/

/-- Characters matched by the regex class `\s` (ASCII part), which is
also the set stripped by `str.strip()`. -/
def pyIsSpace (c : Char) : Bool :=
  c = ' ' || c = '\t' || c = '\n' || c = '\r' || c = '\x0b' || c = '\x0c'

/-- One left-to-right pass of `re.sub(r"\s+", " ", text)`: the flag
records whether we are inside a whitespace run whose single replacement
space has already been emitted. -/
def collapseAux : Bool → List Char → List Char
  | _, [] => []
  | inRun, c :: rest =>
    if pyIsSpace c then
      if inRun then collapseAux true rest
      else ' ' :: collapseAux true rest
    else c :: collapseAux false rest

/-- Model of `re.sub(r"\s+", " ", text)`: every maximal run of
whitespace characters is replaced by a single space. -/
def re_sub_ws (s : List Char) : List Char := collapseAux false s

/-- Leading-whitespace removal, the left half of `str.strip()`. -/
def lstrip (s : List Char) : List Char := s.dropWhile pyIsSpace

/-- Trailing-whitespace removal, the right half of `str.strip()`. -/
def rstrip : List Char → List Char
  | [] => []
  | c :: rest =>
    match rstrip rest with
    | [] => if pyIsSpace c then [] else [c]
    | r => c :: r

/-- Model of Python `str.strip()`. -/
def pyStrip (s : List Char) : List Char := rstrip (lstrip s)

/-- Model of `clean_text` (utils.py lines 149-151):
`re.sub(r"\s+", " ", text)` followed by `.strip()`. -/
def clean_text (s : List Char) : List Char := pyStrip (re_sub_ws s)

/-! ### Specification-side normal form for `clean_text`

The spec describes the normalization as "collapse all whitespace runs to
single spaces, trim ends".  Its canonical form: cut the input into its
maximal non-whitespace runs and join them with single spaces. -/

/-- Maximal non-whitespace runs of the input, in order; `cur` carries
the (reversed) run being read. -/
def wordsAux : List Char → List Char → List (List Char)
  | cur, [] => if cur.isEmpty then [] else [cur.reverse]
  | cur, c :: rest =>
    if pyIsSpace c then
      if cur.isEmpty then wordsAux [] rest
      else cur.reverse :: wordsAux [] rest
    else wordsAux (c :: cur) rest

/-- The maximal non-whitespace runs of a string. -/
def wordsOf (s : List Char) : List (List Char) := wordsAux [] s

/-- Joins tokens with single spaces, with no leading or trailing space. -/
def joinWords : List (List Char) → List Char
  | [] => []
  | [w] => w
  | w :: ws => w ++ ' ' :: joinWords ws

/-- Statement of the spec's wording of the normalization ("collapsing
runs of whitespace and trimming ends"): the maximal non-whitespace runs
joined by single spaces. -/
def cleanSpec (s : List Char) : List Char := joinWords (wordsOf s)

/-! ### Lemmas about `clean_text` -/

theorem joinWords_cons_cons (w b : List Char) (ws : List (List Char)) :
    joinWords (w :: b :: ws) = w ++ ' ' :: joinWords (b :: ws) := rfl

theorem rstrip_cons_of_not_space {c : Char} (h : pyIsSpace c = false)
    (x : List Char) : rstrip (c :: x) = c :: rstrip x := by
  show (match rstrip x with
        | [] => if pyIsSpace c then [] else [c]
        | r => c :: r) = c :: rstrip x
  cases hx : rstrip x with
  | nil => simp [h]
  | cons a r => rfl

/-- Stripping the collapsed string on the left is the same as running the
collapse pass with the in-run flag initially set. -/
theorem lstrip_collapseAux (s : List Char) :
    lstrip (collapseAux false s) = collapseAux true s ∧
    lstrip (collapseAux true s) = collapseAux true s := by
  induction s with
  | nil => exact ⟨rfl, rfl⟩
  | cons c rest ih =>
    by_cases hc : pyIsSpace c = true
    · have hrw1 : collapseAux false (c :: rest) = ' ' :: collapseAux true rest := by
        simp [collapseAux, hc]
      have hrw2 : collapseAux true (c :: rest) = collapseAux true rest := by
        simp [collapseAux, hc]
      constructor
      · rw [hrw1, hrw2]
        have h1 : lstrip (' ' :: collapseAux true rest)
            = lstrip (collapseAux true rest) := by
          simp [lstrip, List.dropWhile, pyIsSpace]
        rw [h1, ih.2]
      · rw [hrw2]
        exact ih.2
    · have hc' : pyIsSpace c = false := by simpa using hc
      constructor
      · show lstrip (collapseAux false (c :: rest)) = collapseAux true (c :: rest)
        simp only [collapseAux, hc', if_false, Bool.false_eq_true]
        simp [lstrip, List.dropWhile, hc']
      · show lstrip (collapseAux true (c :: rest)) = collapseAux true (c :: rest)
        simp only [collapseAux, hc', if_false, Bool.false_eq_true]
        simp [lstrip, List.dropWhile, hc']

/-- Every token produced by `wordsAux` is a nonempty run of
non-whitespace characters (provided the accumulator is such a run). -/
theorem wordsAux_tokens (t : List Char) :
    ∀ cur, cur.all (fun c => !pyIsSpace c) = true →
      ∀ w ∈ wordsAux cur t, w ≠ [] ∧ w.all (fun c => !pyIsSpace c) = true := by
  induction t with
  | nil =>
    intro cur hcur w hw
    by_cases h : cur.isEmpty
    · simp [wordsAux, h] at hw
    · simp only [wordsAux, h, if_false, Bool.false_eq_true, List.mem_singleton] at hw
      subst hw
      refine ⟨?_, by simpa using hcur⟩
      intro hrev
      have : cur = [] := by simpa using congrArg List.reverse hrev
      simp [this] at h
  | cons c rest ih =>
    intro cur hcur w hw
    by_cases hc : pyIsSpace c = true
    · by_cases hcur0 : cur.isEmpty
      · simp only [wordsAux, hc, if_true, hcur0] at hw
        exact ih [] rfl w hw
      · simp only [wordsAux, hc, if_true, hcur0, Bool.false_eq_true, if_false,
          List.mem_cons] at hw
        rcases hw with hw | hw
        · subst hw
          refine ⟨?_, by simpa using hcur⟩
          intro hrev
          have : cur = [] := by simpa using congrArg List.reverse hrev
          simp [this] at hcur0
        · exact ih [] rfl w hw
    · have hc' : pyIsSpace c = false := by simpa using hc
      simp only [wordsAux, hc', Bool.false_eq_true, if_false] at hw
      refine ih (c :: cur) ?_ w hw
      simp [hc', hcur]

/-- Joint characterization of collapse-then-right-strip by the token
decomposition: with the in-run flag set the result is exactly the tokens
joined by single spaces, and with the flag clear a pending token prefix
is carried through unchanged. -/
theorem collapse_rstrip_words (t : List Char) :
    (rstrip (collapseAux true t) = joinWords (wordsAux [] t)) ∧
    (∀ cur : List Char, cur ≠ [] →
      cur.reverse ++ rstrip (collapseAux false t) = joinWords (wordsAux cur t)) := by
  induction t with
  | nil =>
    constructor
    · rfl
    · intro cur hcur
      have h1 : cur.isEmpty = false := by
        cases cur with
        | nil => exact absurd rfl hcur
        | cons a l => rfl
      simp [collapseAux, rstrip, wordsAux, h1, joinWords]
  | cons c rest ih =>
    by_cases hc : pyIsSpace c = true
    · have hrw1 : collapseAux false (c :: rest) = ' ' :: collapseAux true rest := by
        simp [collapseAux, hc]
      have hrw2 : collapseAux true (c :: rest) = collapseAux true rest := by
        simp [collapseAux, hc]
      constructor
      · rw [hrw2, ih.1]
        simp [wordsAux, hc]
      · intro cur hcur
        have h1 : cur.isEmpty = false := by
          cases cur with
          | nil => exact absurd rfl hcur
          | cons a l => rfl
        rw [hrw1]
        simp only [wordsAux, hc, if_true, h1, Bool.false_eq_true, if_false]
        cases hw : wordsAux ([] : List Char) rest with
        | nil =>
          have hr : rstrip (collapseAux true rest) = [] := by
            rw [ih.1, hw]; rfl
          show cur.reverse ++ (match rstrip (collapseAux true rest) with
              | [] => if pyIsSpace ' ' then [] else [' ']
              | r => ' ' :: r) = _
          rw [hr]
          simp [pyIsSpace, joinWords]
        | cons w ws =>
          have hwne : w ≠ [] :=
            (wordsAux_tokens rest [] rfl w (by rw [hw]; exact List.mem_cons_self _ _)).1
          have hr : rstrip (collapseAux true rest) = joinWords (w :: ws) := by
            rw [ih.1, hw]
          have hne : joinWords (w :: ws) ≠ [] := by
            cases w with
            | nil => exact absurd rfl hwne
            | cons a l =>
              cases ws with
              | nil => simp [joinWords]
              | cons b ws' => simp [joinWords]
          show cur.reverse ++ (match rstrip (collapseAux true rest) with
              | [] => if pyIsSpace ' ' then [] else [' ']
              | r => ' ' :: r) = _
          rw [hr]
          cases hj : joinWords (w :: ws) with
          | nil => exact absurd hj hne
          | cons a r =>
            rw [joinWords_cons_cons, ← hj]
            simp
    · have hc' : pyIsSpace c = false := by simpa using hc
      constructor
      · show rstrip (collapseAux true (c :: rest)) = _
        simp only [collapseAux, hc', Bool.false_eq_true, if_false]
        rw [rstrip_cons_of_not_space hc']
        have := ih.2 [c] (by simp)
        simpa [wordsAux, hc'] using this
      · intro cur hcur
        show cur.reverse ++ rstrip (collapseAux false (c :: rest)) = _
        simp only [collapseAux, hc', Bool.false_eq_true, if_false]
        rw [rstrip_cons_of_not_space hc']
        have := ih.2 (c :: cur) (by simp)
        simp only [wordsAux, hc', Bool.false_eq_true, if_false]
        rw [← this]
        simp

/-- The source's `clean_text` computes exactly the specification's
normal form: maximal non-whitespace runs joined by single spaces. -/
theorem clean_text_eq_cleanSpec (s : List Char) : clean_text s = cleanSpec s := by
  show pyStrip (re_sub_ws s) = _
  show rstrip (lstrip (collapseAux false s)) = _
  rw [(lstrip_collapseAux s).1]
  exact (collapse_rstrip_words s).1

example : clean_text "  hello \t\n world  ".toList = "hello world".toList := by decide

example : cleanSpec "  hello \t\n world  ".toList = "hello world".toList := by decide

/-! ## Chunking (`getTextSplitter` / `create_chunks`, utils.py lines 51-53 and 131-139) -/

/-- Configuration of the text splitter built by `getTextSplitter`
(utils.py lines 51-53): `RecursiveCharacterTextSplitter(chunk_size=400,
chunk_overlap=50)`. -/
structure TextSplitter where
  chunk_size : Nat
  chunk_overlap : Nat
deriving DecidableEq

/-- Model of `getTextSplitter` (utils.py lines 51-53). -/
def getTextSplitter : TextSplitter :=
  { chunk_size := 400, chunk_overlap := 50 }

/-- Modelled from the spec: the implementation of the configured
`RecursiveCharacterTextSplitter` is third-party library code not present
in `src/`; the spec describes its output as bounded-length substrings of
the page text, of target length `chunk_size`, each overlapping its
neighbor in `chunk_overlap` characters.  Fuel bounds the recursion; one
unit per produced chunk suffices, and callers pass the text length. -/
def splitText (chunk_size chunk_overlap : Nat) : Nat → List Char → List (List Char)
  | 0, s => [s]
  | fuel + 1, s =>
    if s.length ≤ chunk_size then [s]
    else
      s.take chunk_size ::
        splitText chunk_size chunk_overlap fuel (s.drop (chunk_size - chunk_overlap))

/-- Splitting one page of text with a configured splitter. -/
def split_text (ts : TextSplitter) (s : List Char) : List (List Char) :=
  splitText ts.chunk_size ts.chunk_overlap s.length s

/-- Metadata carried by a loaded page, as read by `printResponse`
(utils.py lines 126-128). -/
structure Metadata where
  title : String
  page_label : String
deriving DecidableEq

/-- A langchain document: page (or chunk) text plus metadata. -/
structure Document where
  page_content : List Char
  metadata : Metadata
deriving DecidableEq

/-- Splitting a list of documents: each page's text is split and each
resulting chunk keeps the source page's metadata. -/
def split_documents (ts : TextSplitter) (docs : List Document) : List Document :=
  (docs.map fun d =>
    (split_text ts d.page_content).map fun c => Document.mk c d.metadata).flatten

/-- Model of `create_chunks` (utils.py lines 131-139).  `PyPDFLoader` is
external I/O, modelled as a parameter `load` mapping the file path to
the loaded pages (or a loader failure).  The function loads the PDF at
the fixed local path `resources/<file_path>`, normalizes every page's
text with `clean_text`, then splits the pages into chunks. -/
def create_chunks (load : String → Except PyError (List Document))
    (file_path : String) : Except PyError (List Document) :=
  match load ("resources/" ++ file_path) with
  | .error e => .error e
  | .ok documents =>
    .ok (split_documents getTextSplitter
      (documents.map fun d => { d with page_content := clean_text d.page_content }))

/-- Model of `add_documents_to_vector_store` (utils.py lines 142-146):
chunks of every listed PDF are collected in order; the returned list is
what `vector_store.add_documents` would upsert. -/
def add_documents_to_vector_store (load : String → Except PyError (List Document)) :
    List String → Except PyError (List Document)
  | [] => .ok []
  | pdf :: rest =>
    match create_chunks load pdf with
    | .error e => .error e
    | .ok cs =>
      match add_documents_to_vector_store load rest with
      | .error e => .error e
      | .ok cs' => .ok (cs ++ cs')

/-- Reassembles a chunk list that overlaps by `ov` characters: the first
chunk, then every later chunk with its leading overlap removed. -/
def joinOverlap (ov : Nat) : List (List Char) → List Char
  | [] => []
  | c :: cs => c ++ (cs.map (List.drop ov)).flatten

/-- Checks that each chunk starts with exactly the last `ov` characters
of its predecessor. -/
def chkOverlap (ov : Nat) : List (List Char) → Bool
  | a :: b :: rest => (b.take ov == a.drop (a.length - ov)) && chkOverlap ov (b :: rest)
  | _ => true

theorem splitText_drop_join (fuel : Nat) :
    ∀ s : List Char, 50 ≤ s.length → s.length ≤ 350 * fuel + 400 →
      ((splitText 400 50 fuel s).map (List.drop 50)).flatten = s.drop 50 := by
  induction fuel with
  | zero =>
    intro s _ _
    simp [splitText]
  | succ fuel ih =>
    intro s h50 hlen
    by_cases hshort : s.length ≤ 400
    · simp [splitText, hshort]
    · have hrw : splitText 400 50 (fuel + 1) s
          = s.take 400 :: splitText 400 50 fuel (s.drop (400 - 50)) := by
        simp [splitText, hshort]
      rw [hrw]
      have hu50 : 50 ≤ (s.drop (400 - 50)).length := by
        simp only [List.length_drop]
        omega
      have hulen : (s.drop (400 - 50)).length ≤ 350 * fuel + 400 := by
        simp only [List.length_drop]
        omega
      rw [List.map_cons, List.flatten_cons, ih _ hu50 hulen]
      rw [List.drop_take, List.drop_drop]
      have h1 : (400 : Nat) - 50 = 350 := by norm_num
      rw [h1]
      have h2 : (350 : Nat) + 50 = 50 + 350 := by norm_num
      rw [h2, ← List.drop_drop]
      exact List.take_append_drop 350 (s.drop 50)

theorem splitText_join (fuel : Nat) (s : List Char)
    (hlen : s.length ≤ 350 * fuel + 400) :
    joinOverlap 50 (splitText 400 50 fuel s) = s := by
  cases fuel with
  | zero => simp [splitText, joinOverlap]
  | succ fuel =>
    by_cases hshort : s.length ≤ 400
    · simp [splitText, hshort, joinOverlap]
    · have hrw : splitText 400 50 (fuel + 1) s
          = s.take 400 :: splitText 400 50 fuel (s.drop (400 - 50)) := by
        simp [splitText, hshort]
      rw [hrw]
      show s.take 400 ++ ((splitText 400 50 fuel (s.drop (400 - 50))).map
        (List.drop 50)).flatten = s
      have hu50 : 50 ≤ (s.drop (400 - 50)).length := by
        simp only [List.length_drop]
        omega
      have hulen : (s.drop (400 - 50)).length ≤ 350 * fuel + 400 := by
        simp only [List.length_drop]
        omega
      rw [splitText_drop_join fuel _ hu50 hulen, List.drop_drop]
      have h2 : (400 : Nat) - 50 + 50 = 400 := by norm_num
      rw [h2]
      exact List.take_append_drop 400 s

theorem splitText_size (fuel : Nat) :
    ∀ s : List Char, s.length ≤ 350 * fuel + 400 →
      ∀ c ∈ splitText 400 50 fuel s, c.length ≤ 400 := by
  induction fuel with
  | zero =>
    intro s hlen c hc
    simp only [splitText, List.mem_singleton] at hc
    subst hc
    simpa using hlen
  | succ fuel ih =>
    intro s hlen c hc
    by_cases hshort : s.length ≤ 400
    · simp only [splitText, hshort, if_true, List.mem_singleton] at hc
      subst hc
      exact hshort
    · have hrw : splitText 400 50 (fuel + 1) s
          = s.take 400 :: splitText 400 50 fuel (s.drop (400 - 50)) := by
        simp [splitText, hshort]
      rw [hrw] at hc
      rcases List.mem_cons.1 hc with hc | hc
      · subst hc
        simp
      · refine ih _ ?_ c hc
        simp only [List.length_drop]
        omega

theorem splitText_head (fuel : Nat) (u : List Char) :
    ∃ b t, splitText 400 50 fuel u = b :: t ∧ b.take 50 = u.take 50 := by
  cases fuel with
  | zero => exact ⟨u, [], rfl, rfl⟩
  | succ fuel =>
    by_cases hshort : u.length ≤ 400
    · exact ⟨u, [], by simp [splitText, hshort], rfl⟩
    · refine ⟨u.take 400, splitText 400 50 fuel (u.drop (400 - 50)),
        by simp [splitText, hshort], ?_⟩
      rw [List.take_take]
      norm_num

theorem splitText_chkOverlap (fuel : Nat) :
    ∀ s : List Char, s.length ≤ 350 * fuel + 400 →
      chkOverlap 50 (splitText 400 50 fuel s) = true := by
  induction fuel with
  | zero => intro s _; rfl
  | succ fuel ih =>
    intro s hlen
    by_cases hshort : s.length ≤ 400
    · simp [splitText, hshort, chkOverlap]
    · have hrw : splitText 400 50 (fuel + 1) s
          = s.take 400 :: splitText 400 50 fuel (s.drop (400 - 50)) := by
        simp [splitText, hshort]
      rw [hrw]
      obtain ⟨b, t, hbt, hb50⟩ := splitText_head fuel (s.drop (400 - 50))
      rw [hbt]
      show ((b.take 50 == (s.take 400).drop ((s.take 400).length - 50))
          && chkOverlap 50 (b :: t)) = true
      have hlen400 : (s.take 400).length = 400 := by
        simp only [List.length_take]
        omega
      have hrec : chkOverlap 50 (b :: t) = true := by
        rw [← hbt]
        refine ih _ ?_
        simp only [List.length_drop]
        omega
      have heq : b.take 50 = (s.take 400).drop ((s.take 400).length - 50) := by
        rw [hlen400, hb50, List.drop_take]
      rw [heq, hrec]
      simp only [beq_self_eq_true, Bool.and_self]

/-! ## Prompt template (`getPromptTemplate`, utils.py lines 69-105)

The template string is built from three concatenated Python literals;
the middle one is an f-string that interpolates `chat_history` at
construction time.  At answer time langchain formats the template with
`str.format`, substituting the declared variables `context` and
`question`. -/

/-- Errors of `str.format`: an unknown replacement-field key, a single
closing brace outside a field, or an unterminated field. -/
inductive FmtErr where
  | keyError (key : List Char)
  | singleClosingBrace
  | unterminatedField
deriving DecidableEq

/-- Modelled from the spec: the chain "substitutes \x7bcontext\x7d = concatenated
chunk text ... and \x7bquestion\x7d into the template".  The substitution is
performed by Python `str.format` (library code not in `src/`), scanned
here character by character: `mode = none` is literal text, `mode = some
key` is inside a replacement field whose (reversed) key is `key`.  Keys
other than the two declared variables raise `KeyError`; substituted
values are not rescanned.  Escaped braces and format specs are not
modelled (the template contains neither). -/
def fmtAux (ctx q : List Char) : Option (List Char) → List Char → Except FmtErr (List Char)
  | none, [] => .ok []
  | some _, [] => .error .unterminatedField
  | none, c :: rest =>
    if c = '{' then fmtAux ctx q (some []) rest
    else if c = '}' then .error .singleClosingBrace
    else Except.map (fun t => c :: t) (fmtAux ctx q none rest)
  | some key, c :: rest =>
    if c = '}' then
      if key.reverse = "context".toList then
        Except.map (fun t => ctx ++ t) (fmtAux ctx q none rest)
      else if key.reverse = "question".toList then
        Except.map (fun t => q ++ t) (fmtAux ctx q none rest)
      else .error (.keyError key.reverse)
    else fmtAux ctx q (some (c :: key)) rest

/-- Formats a template with the values of the two declared variables
`context` and `question`. -/
def pyFormat (tmpl ctx q : List Char) : Except FmtErr (List Char) :=
  fmtAux ctx q none tmpl

/-- Strings with no brace characters: `str.format` treats them as pure
literal text. -/
def braceFree (s : List Char) : Bool :=
  s.all fun c => !(c == '{' || c == '}')

/-- A langchain `PromptTemplate`: the template string and the declared
input variables. -/
structure PromptTemplate where
  template : List Char
  input_variables : List String
deriving DecidableEq

/-- Text of the first template literal (utils.py lines 72-95) up to its
\x7bcontext\x7d placeholder. -/
def tmplHead : String := "\n            You are a helpful, friendly, and engaging AI assistant for **Icyco**, an ice cream shop. \n            Your job is to answer user questions related to Icyco’s products, services, events, or company info in a way that is both informative and delightful.\n    \n            Use the following retrieved documents to provide an accurate and engaging response.\n    \n            - If the user’s question is **not related to Icyco**, politely respond with:  \n              *\"I’m here to help with questions about Icyco only — let me know if there’s something specific you’re curious about!\"*\n    \n            - If the user’s question **is related to Icyco** but you **cannot find the answer** in the provided documents, say:  \n              *\"That’s a great question about Icyco, but I couldn’t find the answer in the info I have. You might want to reach out to Icyco directly for the most up-to-date details!\"*\n    \n            Your tone should be:\n            - Friendly and conversational 🧁  \n            - Engaging and easy to understand  \n            - Accurate — don’t make up any information\n    \n            If it fits naturally, feel free to show enthusiasm, add a touch of personality, or relate to the excitement around ice cream!\n    \n            ---  \n            Context:  \n            "

/-- Template text between the \x7bcontext\x7d placeholder and the interpolated
chat history: the tail of the first literal (utils.py lines 94-95) plus
the f-string text before `chat_history` (utils.py lines 96-97). -/
def tmplMid1 : String := "\n            \n            \n                "

/-- Template text between the interpolated chat history and the
\x7bquestion\x7d placeholder: the f-string tail (utils.py line 98) plus the
start of the last literal (utils.py lines 99-100). -/
def tmplMid2 : String := "\n                \n                    user: "

/-- Tail of the last template literal after \x7bquestion\x7d (utils.py lines
100-102). -/
def tmplTail : String := "\n                    Assistant:\n                    "

/-- Model of `getPromptTemplate` (utils.py lines 69-105): the template
string with `chat_history` interpolated once at construction time, and
the `input_variables` list passed on line 103. -/
def getPromptTemplate (chat_history : List Char) : PromptTemplate :=
  { template := tmplHead.toList ++ ("{context}".toList ++ (tmplMid1.toList ++
      (chat_history ++ (tmplMid2.toList ++ ("{question}".toList ++ tmplTail.toList))))),
    input_variables := ["context", "question"] }

/-- The three strings occur in the given order inside `p`. -/
def containsInOrder3 (p a b c : List Char) : Prop :=
  ∃ s1 s2 s3 s4, p = s1 ++ (a ++ (s2 ++ (b ++ (s3 ++ (c ++ s4)))))

theorem fmtAux_step_lit (ctx q : List Char) {c : Char} (hc1 : c ≠ '{')
    (hc2 : c ≠ '}') (rest : List Char) :
    fmtAux ctx q none (c :: rest)
      = Except.map (fun t => c :: t) (fmtAux ctx q none rest) := by
  simp only [fmtAux, if_neg hc1, if_neg hc2]

theorem fmtAux_literal (ctx q : List Char) : ∀ l rest : List Char,
    braceFree l = true →
    fmtAux ctx q none (l ++ rest)
      = Except.map (fun t => l ++ t) (fmtAux ctx q none rest) := by
  intro l
  induction l with
  | nil =>
    intro rest _
    cases h : fmtAux ctx q none rest <;> simp [Except.map, h]
  | cons c l' ih =>
    intro rest hbf
    have hbf' : braceFree l' = true := by
      simp only [braceFree, List.all_cons, Bool.and_eq_true] at hbf
      exact hbf.2
    have hc : c ≠ '{' ∧ c ≠ '}' := by
      simp only [braceFree, List.all_cons, Bool.and_eq_true, Bool.not_eq_true',
        Bool.or_eq_false_iff, beq_eq_false_iff_ne] at hbf
      exact hbf.1
    have hstep := fmtAux_step_lit ctx q hc.1 hc.2 (l' ++ rest)
    show fmtAux ctx q none (c :: (l' ++ rest)) = _
    rw [hstep, ih rest hbf']
    cases fmtAux ctx q none rest <;> rfl

/-- Scanning the \x7bcontext\x7d replacement field substitutes the context
value. -/
theorem fmtAux_context (ctx q rest : List Char) :
    fmtAux ctx q none ("{context}".toList ++ rest)
      = Except.map (fun t => ctx ++ t) (fmtAux ctx q none rest) := rfl

/-- Scanning the \x7bquestion\x7d replacement field substitutes the question
value. -/
theorem fmtAux_question (ctx q rest : List Char) :
    fmtAux ctx q none ("{question}".toList ++ rest)
      = Except.map (fun t => q ++ t) (fmtAux ctx q none rest) := rfl

theorem fmtAux_literal_nil (ctx q l : List Char) (h : braceFree l = true) :
    fmtAux ctx q none l = .ok l := by
  have h2 := fmtAux_literal ctx q l [] h
  rw [List.append_nil] at h2
  rw [h2, show fmtAux ctx q none ([] : List Char) = Except.ok ([] : List Char)
    from rfl]
  simp [Except.map]

/-- Formatting the prompt template with a brace-free chat history: the
result substitutes the context and question values in place and keeps
everything else, in particular the interpolated chat history, fixed. -/
theorem pyFormat_template (ctx hist q : List Char) (h : braceFree hist = true) :
    pyFormat (getPromptTemplate hist).template ctx q
      = .ok (tmplHead.toList ++ (ctx ++ (tmplMid1.toList ++ (hist ++
          (tmplMid2.toList ++ (q ++ tmplTail.toList)))))) := by
  show fmtAux ctx q none (getPromptTemplate hist).template = _
  simp only [getPromptTemplate]
  rw [fmtAux_literal ctx q tmplHead.toList _ (by decide), fmtAux_context,
    fmtAux_literal ctx q tmplMid1.toList _ (by decide),
    fmtAux_literal ctx q hist _ h,
    fmtAux_literal ctx q tmplMid2.toList _ (by decide), fmtAux_question,
    fmtAux_literal_nil ctx q tmplTail.toList (by decide)]
  simp [Except.map]

/-! ## Vector store provisioning (`get_vector_store` / `create_vector_store`,
utils.py lines 18-48) and the RAG chain (`createRagChain`, lines 108-118) -/

/-- Handle to a named Pinecone index, as returned by
`pc.Index(pc_index_name)` and wrapped by `PineconeVectorStore`. -/
structure VectorStoreHandle where
  index_name : String
deriving DecidableEq

/-- The `ServerlessSpec(cloud=..., region=...)` argument of
`pc.create_index` (utils.py lines 37-40). -/
structure ServerlessSpec where
  cloud : String
  region : String
deriving DecidableEq

/-- State and behaviour of the hosted Pinecone provider.  `indexes` is
the list of existing index names; `ingested` records every upsert of PDF
chunks into an index; `ready` gives the provider's answer to the `k`-th
readiness poll for a named index.  The `*_error` fields inject failures
of the corresponding external calls (`none` means the call succeeds). -/
structure Pinecone where
  indexes : List String
  ingested : List (String × List String)
  ready : String → Nat → Bool
  list_error : Option PyError
  create_error : Option PyError
  describe_error : String → Nat → Option PyError
  upsert_error : Option PyError

/-- The names returned by `pc.list_indexes()` (utils.py line 22). -/
def list_indexes (pc : Pinecone) : Except PyError (List String) :=
  match pc.list_error with
  | some e => .error e
  | none => .ok pc.indexes

/-- The `pc.create_index(name=..., dimension=384, metric="cosine",
spec=ServerlessSpec(...))` call (utils.py lines 33-41). -/
def create_index (pc : Pinecone) (name : String) (dimension : Nat)
    (metric : String) (spec : ServerlessSpec) : Except PyError Pinecone :=
  match pc.create_error with
  | some e => .error e
  | none => .ok { pc with indexes := pc.indexes ++ [name] }

/-- The `k`-th `pc.describe_index(pc_index_name).status["ready"]` check
(utils.py line 42). -/
def describe_index_ready (pc : Pinecone) (name : String) (k : Nat) :
    Except PyError Bool :=
  match pc.describe_error name k with
  | some e => .error e
  | none => .ok (pc.ready name k)

/-- The `vector_store.add_documents` upsert of the chunks of the given
PDFs into the named index (utils.py lines 47 and 142-146), recorded as
one ingestion event on the provider. -/
def upsert (pc : Pinecone) (name : String) (pdf_files : List String) :
    Except PyError Pinecone :=
  match pc.upsert_error with
  | some e => .error e
  | none => .ok { pc with ingested := pc.ingested ++ [(name, pdf_files)] }

/-- Model of the call `time.sleep(1)` on line 43 of utils.py.  Line 1
reads `from datetime import time`, so `time` is the class
`datetime.time`, which has no `sleep` attribute: the call raises
`AttributeError` instead of sleeping. -/
def time_sleep (secs : Nat) : Except PyError Unit :=
  .error (.attributeError "datetime.time has no attribute sleep")

/-- The polling loop on lines 42-43 of utils.py:
`while not pc.describe_index(pc_index_name).status["ready"]:
time.sleep(1)`.  `k` counts the polls made so far; `fuel` bounds the
number of loop iterations modelled, with `.ok none` meaning the loop was
still running when the fuel ran out. -/
def readiness_poll (pc : Pinecone) (name : String) :
    Nat → Nat → Except PyError (Option Unit)
  | _, 0 => .ok none
  | k, fuel + 1 =>
    match describe_index_ready pc name k with
    | .error e => .error e
    | .ok true => .ok (some ())
    | .ok false =>
      match time_sleep 1 with
      | .error e => .error e
      | .ok _ => readiness_poll pc name (k + 1) fuel

/-- Model of `create_vector_store` (utils.py lines 32-48): create the
index with the fixed parameters, poll until the provider reports it
ready, then ingest the PDF files; returns the updated provider state and
the new store handle, with `.ok none` marking a run still inside the
polling loop after `fuel` iterations. -/
def create_vector_store (pc : Pinecone) (pc_index_name : String)
    (pdf_files : List String) (fuel : Nat) :
    Except PyError (Option (Pinecone × VectorStoreHandle)) :=
  match create_index pc pc_index_name 384 "cosine"
      { cloud := "aws", region := "us-east-1" } with
  | .error e => .error e
  | .ok pc1 =>
    match readiness_poll pc1 pc_index_name 0 fuel with
    | .error e => .error e
    | .ok none => .ok none
    | .ok (some _) =>
      match upsert pc1 pc_index_name pdf_files with
      | .error e => .error e
      | .ok pc2 => .ok (some (pc2, { index_name := pc_index_name }))

/-- Model of `get_vector_store` (utils.py lines 18-29): if the named
index is absent from `pc.list_indexes()`, run `create_vector_store`;
either way return a handle built from `pc.Index(pc_index_name)`. -/
def get_vector_store (pc : Pinecone) (pc_index_name : String)
    (pdf_files : List String) (fuel : Nat) :
    Except PyError (Option (Pinecone × VectorStoreHandle)) :=
  match list_indexes pc with
  | .error e => .error e
  | .ok existing_indexes =>
    if pc_index_name ∈ existing_indexes then
      .ok (some (pc, { index_name := pc_index_name }))
    else
      match create_vector_store pc pc_index_name pdf_files fuel with
      | .error e => .error e
      | .ok none => .ok none
      | .ok (some (pc2, _)) => .ok (some (pc2, { index_name := pc_index_name }))

/-- Model of the `RetrievalQA` chain assembled by `createRagChain`
(utils.py lines 108-118): the LLM, the retriever over the vector store
with its `k` parameter, and the fixed chain configuration. -/
structure RagChain where
  llm : List Char → List Char
  store : VectorStoreHandle
  k : Nat
  chain_type : String
  return_source_documents : Bool
  prompt_template : List Char

/-- Model of `createRagChain` (utils.py lines 108-118): retriever with
`search_kwargs = \x7b"k": 3\x7d`, `chain_type = "stuff"`,
`return_source_documents = True`, and the supplied prompt template. -/
def createRagChain (llm : List Char → List Char)
    (vector_store : VectorStoreHandle) (prompt_template : PromptTemplate) :
    RagChain :=
  { llm := llm, store := vector_store, k := 3, chain_type := "stuff",
    return_source_documents := true,
    prompt_template := prompt_template.template }

/-- Result of one chain invocation, as read by `printResponse`
(utils.py lines 121-128): the generated answer under `result` and the
retrieved chunks under `source_documents`. -/
structure Response where
  result : List Char
  source_documents : List Document

/-- Concatenation of the retrieved chunk texts into the context value
(the "stuff" chain joins the documents with blank lines). -/
def joinContext : List (List Char) → List Char
  | [] => []
  | [d] => d
  | d :: ds => d ++ '\n' :: '\n' :: joinContext ds

/-- Modelled from the spec: execution of the `RetrievalQA` chain is
library code not in `src/`.  Per question the chain "fetches the 3
nearest chunks by embedding similarity, substitutes \x7bcontext\x7d =
concatenated chunk text ... and \x7bquestion\x7d into the template, and sends
the result to the hosted LLM", returning "the generated answer text plus
the retrieved source chunks".  The hosted similarity search is the
parameter `nearest`, mapping an index name, a count `k` and a query to
the `k` nearest chunks. -/
def runRagChain (chain : RagChain)
    (nearest : String → Nat → List Char → List Document)
    (question : List Char) : Except FmtErr Response :=
  let docs := nearest chain.store.index_name chain.k question
  match pyFormat chain.prompt_template
      (joinContext (docs.map Document.page_content)) question with
  | .error e => .error e
  | .ok prompt => .ok { result := chain.llm prompt, source_documents := docs }

/-- Reading a whitespace-free block just extends the pending token. -/
theorem wordsAux_append (w : List Char) :
    ∀ cur rest, w.all (fun c => !pyIsSpace c) = true →
      wordsAux cur (w ++ rest) = wordsAux (w.reverse ++ cur) rest := by
  induction w with
  | nil => intro cur rest _; rfl
  | cons c w' ih =>
    intro cur rest hall
    have hc : pyIsSpace c = false := by
      have := hall
      simp [List.all_cons] at this
      simpa using this.1
    have hall' : w'.all (fun c => !pyIsSpace c) = true := by
      simp [List.all_cons] at hall
      simpa using hall.2
    show wordsAux cur (c :: (w' ++ rest)) = _
    simp only [wordsAux, hc, Bool.false_eq_true, if_false]
    rw [ih (c :: cur) rest hall']
    simp

/-- Tokenizing a single-space join of nonempty whitespace-free tokens
recovers exactly those tokens. -/
theorem wordsOf_joinWords : ∀ ws : List (List Char),
    (∀ w ∈ ws, w ≠ [] ∧ w.all (fun c => !pyIsSpace c) = true) →
    wordsOf (joinWords ws) = ws := by
  intro ws
  induction ws with
  | nil => intro _; rfl
  | cons w ws' ih =>
    intro hgood
    have hw := hgood w (List.mem_cons_self _ _)
    have hne : w.reverse.isEmpty = false := by
      cases hrc : w.reverse with
      | nil =>
        have : w = [] := by simpa using congrArg List.reverse hrc
        exact absurd this hw.1
      | cons a l => rfl
    cases ws' with
    | nil =>
      show wordsAux [] w = [w]
      rw [show w = w ++ [] by simp, wordsAux_append w [] [] hw.2]
      simp only [wordsAux, List.append_nil, hne, Bool.false_eq_true, if_false]
      simp
    | cons b ws'' =>
      show wordsAux [] (w ++ ' ' :: joinWords (b :: ws'')) = w :: b :: ws''
      rw [wordsAux_append w [] _ hw.2]
      have hsp : pyIsSpace ' ' = true := rfl
      simp only [wordsAux, List.append_nil, hsp, if_true, hne, Bool.false_eq_true,
        if_false]
      have ihr : wordsAux [] (joinWords (b :: ws'')) = b :: ws'' :=
        ih (fun v hv => hgood v (List.mem_cons_of_mem _ hv))
      rw [show wordsAux ([] : List Char) (joinWords (b :: ws'')) = b :: ws''
        from ihr]
      simp

/-- Tokenizing is invariant under `clean_text`. -/
theorem wordsOf_clean_text (s : List Char) : wordsOf (clean_text s) = wordsOf s := by
  rw [clean_text_eq_cleanSpec]
  show wordsOf (joinWords (wordsOf s)) = wordsOf s
  exact wordsOf_joinWords (wordsOf s) (fun w hw => wordsAux_tokens s [] rfl w hw)

/-! ## Supporting facts about the Pinecone model -/

/-- A successful `create_vector_store` run appends the new index name,
records exactly one ingestion event for the supplied PDF list, keeps the
injected-failure behaviour unchanged, and hands back the handle of the
new index. -/
theorem create_vector_store_ok {pc : Pinecone} {name : String}
    {pdfs : List String} {fuel : Nat} {pc2 : Pinecone} {h2 : VectorStoreHandle}
    (h : create_vector_store pc name pdfs fuel = .ok (some (pc2, h2))) :
    pc2.indexes = pc.indexes ++ [name] ∧ pc2.list_error = pc.list_error ∧
    pc2.ingested = pc.ingested ++ [(name, pdfs)] ∧
    h2 = { index_name := name } := by
  simp only [create_vector_store, create_index] at h
  split at h
  · exact absurd h (by simp)
  · rename_i pc1 heq
    split at h
    · exact absurd h (by simp)
    · exact absurd h (by simp)
    · simp only [upsert] at h
      split at h
      · exact absurd h (by simp)
      · rename_i pcu hueq
        split at heq
        · exact absurd heq (by simp)
        · rename_i hce
          have hpc1 : pc1 = { pc with indexes := pc.indexes ++ [name] } := by
            simpa using heq.symm
          subst hpc1
          split at hueq
          · exact absurd hueq (by simp)
          · have hpcu : pcu = { pc with indexes := pc.indexes ++ [name], ingested := pc.ingested ++ [(name, pdfs)] } := by simpa using hueq.symm
            subst hpcu
            simp only [Except.ok.injEq, Option.some.injEq, Prod.mk.injEq] at h
            obtain ⟨hpc, hh⟩ := h
            subst hpc
            exact ⟨rfl, rfl, rfl, hh.symm⟩

/-! ## Claims C1, C2, C3, C9 -/

/-- A fresh provider with no indexes that never reports ready and whose
external calls all succeed. -/
def pcFresh : Pinecone :=
  { indexes := [], ingested := [], ready := fun _ _ => false,
    list_error := none, create_error := none,
    describe_error := fun _ _ => none, upsert_error := none }

/-- A fresh provider that reports every index ready at once. -/
def pcReady : Pinecone := { pcFresh with ready := fun _ _ => true }

/-- Claim C1, what the code actually does at the failing input: with a
provider that is not ready at the first poll, `create_vector_store` does
not poll at a 1-second interval at all — the first `time.sleep(1)` call
raises `AttributeError` (line 1 binds `time` to `datetime.time`), for
any number of modelled loop iterations. -/
theorem create_vector_store_crash_not_ready (fuel : Nat) :
    create_vector_store pcFresh "icyco-index" ["icyco.pdf"] (fuel + 1)
      = .error (.attributeError "datetime.time has no attribute sleep") := rfl

/-- Claim C2: if the first readiness check of `create_vector_store`
returns not-ready, the wait step raises `AttributeError` instead of
sleeping, because `time` is bound to `datetime.time`; the ingestion step
is reached exactly when the index is ready at the first check. -/
theorem create_vector_store_first_check (pc : Pinecone) (name : String)
    (pdfs : List String) (fuel : Nat) (hf : 1 ≤ fuel)
    (hc : pc.create_error = none) (hd : pc.describe_error name 0 = none) :
    (pc.ready name 0 = false →
      create_vector_store pc name pdfs fuel
        = .error (.attributeError "datetime.time has no attribute sleep")) ∧
    (pc.ready name 0 = true → pc.upsert_error = none →
      create_vector_store pc name pdfs fuel
        = .ok (some ({ pc with indexes := pc.indexes ++ [name], ingested := pc.ingested ++ [(name, pdfs)] }, { index_name := name }))) := by
  cases fuel with
  | zero => exact absurd hf (by omega)
  | succ f =>
    constructor
    · intro hready
      simp only [create_vector_store, create_index, hc, readiness_poll,
        describe_index_ready, hd, hready, time_sleep]
    · intro hready hup
      simp only [create_vector_store, create_index, hc, readiness_poll,
        describe_index_ready, hd, hready, upsert, hup]

theorem create_vector_store_first_check_witness :
    (pcFresh.ready "icyco-index" 0 = false ∧
      create_vector_store pcFresh "icyco-index" ["icyco.pdf"] 3
        = .error (.attributeError "datetime.time has no attribute sleep")) ∧
    (pcReady.ready "icyco-index" 0 = true ∧
      create_vector_store pcReady "icyco-index" ["icyco.pdf"] 3
        = .ok (some ({ pcReady with indexes := pcReady.indexes ++ ["icyco-index"], ingested := pcReady.ingested ++ [("icyco-index", ["icyco.pdf"])] }, { index_name := "icyco-index" }))) :=
  ⟨⟨rfl, (create_vector_store_first_check pcFresh "icyco-index" ["icyco.pdf"] 3
      (by decide) rfl rfl).1 rfl⟩,
   ⟨rfl, (create_vector_store_first_check pcReady "icyco-index" ["icyco.pdf"] 3
      (by decide) rfl rfl).2 rfl rfl⟩⟩

/-- Claim C3: when the named index already exists, `get_vector_store`
skips ingestion entirely and returns a handle to the existing index
as-is, whatever PDF list is supplied; hence calling it twice with the
same name performs ingestion only on the first call — the second call
leaves the provider state (in particular its ingestion record)
untouched. -/
theorem get_vector_store_ingests_once :
    (∀ (pc : Pinecone) (name : String) (pdfs : List String) (fuel : Nat),
      pc.list_error = none → name ∈ pc.indexes →
      get_vector_store pc name pdfs fuel
        = .ok (some (pc, { index_name := name }))) ∧
    (∀ (pc : Pinecone) (name : String) (pdfs pdfs' : List String)
        (fuel fuel' : Nat) (pc1 : Pinecone) (h1 : VectorStoreHandle),
      pc.list_error = none →
      get_vector_store pc name pdfs fuel = .ok (some (pc1, h1)) →
      get_vector_store pc1 name pdfs' fuel'
        = .ok (some (pc1, { index_name := name }))) := by
  constructor
  · intro pc name pdfs fuel hl hmem
    simp only [get_vector_store, list_indexes, hl]
    rw [if_pos hmem]
  · intro pc name pdfs pdfs' fuel fuel' pc1 h1 hl hfirst
    simp only [get_vector_store, list_indexes, hl] at hfirst
    by_cases hmem : name ∈ pc.indexes
    · rw [if_pos hmem] at hfirst
      simp only [Except.ok.injEq, Option.some.injEq, Prod.mk.injEq] at hfirst
      obtain ⟨hpc, -⟩ := hfirst
      subst hpc
      simp only [get_vector_store, list_indexes, hl]
      rw [if_pos hmem]
    · rw [if_neg hmem] at hfirst
      cases hcv : create_vector_store pc name pdfs fuel with
      | error e => rw [hcv] at hfirst; exact absurd hfirst (by simp)
      | ok v =>
        rw [hcv] at hfirst
        cases v with
        | none => exact absurd hfirst (by simp)
        | some p =>
          obtain ⟨pc2, hh2⟩ := p
          simp only [Except.ok.injEq, Option.some.injEq, Prod.mk.injEq] at hfirst
          obtain ⟨hpc, -⟩ := hfirst
          subst hpc
          obtain ⟨hidx, hlist, -, -⟩ := create_vector_store_ok hcv
          simp only [get_vector_store, list_indexes, hlist, hl]
          rw [if_pos (by rw [hidx]; exact List.mem_append_right _ (by simp))]

/-- The provider state after the first successful `get_vector_store`
call of the witness below. -/
def pcAfter : Pinecone :=
  { indexes := ["icyco-index"], ingested := [("icyco-index", ["icyco.pdf"])],
    ready := fun _ _ => true, list_error := none, create_error := none,
    describe_error := fun _ _ => none, upsert_error := none }

/-- A provider on which the named index already exists. -/
def pcExisting : Pinecone := { pcFresh with indexes := ["icyco-index"] }

theorem get_vector_store_ingests_once_witness :
    (get_vector_store pcExisting "icyco-index" ["icyco.pdf"] 3
      = .ok (some (pcExisting, { index_name := "icyco-index" }))) ∧
    (get_vector_store pcAfter "icyco-index" ["other.pdf"] 7
      = .ok (some (pcAfter, { index_name := "icyco-index" }))) :=
  ⟨get_vector_store_ingests_once.1 pcExisting "icyco-index" ["icyco.pdf"] 3
      rfl (by decide),
   get_vector_store_ingests_once.2 pcReady "icyco-index" ["icyco.pdf"]
      ["other.pdf"] 3 7 pcAfter { index_name := "icyco-index" } rfl rfl⟩

/-- Claim C9: a failure of any external dependency propagates unchanged
through this module's functions — the listing, index-creation, readiness,
and upsert calls of the provisioning path, and the PDF loader of the
ingestion path; no function catches or translates the error. -/
theorem dependency_errors_propagate :
    (∀ (pc : Pinecone) (name : String) (pdfs : List String) (fuel : Nat)
        (e : PyError), pc.list_error = some e →
      get_vector_store pc name pdfs fuel = .error e) ∧
    (∀ (pc : Pinecone) (name : String) (pdfs : List String) (fuel : Nat)
        (e : PyError), pc.list_error = none → name ∉ pc.indexes →
      pc.create_error = some e →
      get_vector_store pc name pdfs fuel = .error e) ∧
    (∀ (pc : Pinecone) (name : String) (pdfs : List String) (fuel : Nat)
        (e : PyError), pc.create_error = none →
      pc.describe_error name 0 = some e →
      create_vector_store pc name pdfs (fuel + 1) = .error e) ∧
    (∀ (pc : Pinecone) (name : String) (pdfs : List String) (fuel : Nat)
        (e : PyError), pc.create_error = none →
      pc.describe_error name 0 = none → pc.ready name 0 = true →
      pc.upsert_error = some e →
      create_vector_store pc name pdfs (fuel + 1) = .error e) ∧
    (∀ (load : String → Except PyError (List Document)) (fp : String)
        (e : PyError), load ("resources/" ++ fp) = .error e →
      create_chunks load fp = .error e) ∧
    (∀ (load : String → Except PyError (List Document)) (f : String)
        (rest : List String) (e : PyError),
      create_chunks load f = .error e →
      add_documents_to_vector_store load (f :: rest) = .error e) := by
  refine ⟨?_, ?_, ?_, ?_, ?_, ?_⟩
  · intro pc name pdfs fuel e hl
    simp only [get_vector_store, list_indexes, hl]
  · intro pc name pdfs fuel e hl hmem hce
    simp only [get_vector_store, list_indexes, hl]
    rw [if_neg hmem]
    simp only [create_vector_store, create_index, hce]
  · intro pc name pdfs fuel e hce hde
    simp only [create_vector_store, create_index, hce, readiness_poll,
      describe_index_ready, hde]
  · intro pc name pdfs fuel e hce hde hr hue
    simp only [create_vector_store, create_index, hce, readiness_poll,
      describe_index_ready, hde, hr, upsert, hue]
  · intro load fp e hl
    simp only [create_chunks, hl]
  · intro load f rest e hcc
    simp only [add_documents_to_vector_store, hcc]

/-- An injected provider failure used by the propagation witnesses. -/
def errApi : PyError := .apiError "service unreachable"

/-- An injected loader failure used by the propagation witnesses. -/
def errPdf : PyError := .pdfError "malformed pdf"

def pcListFail : Pinecone := { pcFresh with list_error := some errApi }

def pcCreateFail : Pinecone := { pcFresh with create_error := some errApi }

def pcDescribeFail : Pinecone :=
  { pcFresh with describe_error := fun _ _ => some errApi }

def pcUpsertFail : Pinecone := { pcReady with upsert_error := some errApi }

def loadFail : String → Except PyError (List Document) :=
  fun _ => .error errPdf

theorem dependency_errors_propagate_witness :
    get_vector_store pcListFail "icyco-index" ["icyco.pdf"] 3 = .error errApi ∧
    get_vector_store pcCreateFail "icyco-index" ["icyco.pdf"] 3 = .error errApi ∧
    create_vector_store pcDescribeFail "icyco-index" ["icyco.pdf"] 3 = .error errApi ∧
    create_vector_store pcUpsertFail "icyco-index" ["icyco.pdf"] 3 = .error errApi ∧
    create_chunks loadFail "menu.pdf" = .error errPdf ∧
    add_documents_to_vector_store loadFail ["menu.pdf"] = .error errPdf :=
  ⟨dependency_errors_propagate.1 _ _ _ _ _ rfl,
   dependency_errors_propagate.2.1 _ _ _ _ _ rfl (by decide) rfl,
   dependency_errors_propagate.2.2.1 _ _ _ 2 _ rfl rfl,
   dependency_errors_propagate.2.2.2.1 _ _ _ 2 _ rfl rfl rfl rfl,
   dependency_errors_propagate.2.2.2.2.1 _ _ _ rfl,
   dependency_errors_propagate.2.2.2.2.2 _ _ _ _ rfl⟩

/-! ## Claims C4, C5, C6 -/

/-- Claim C4: for every page of text longer than the chunk size, the
chunks produced by the configured splitter collectively cover the source
text (reassembling them while removing each 50-character leading overlap
yields the text back), consecutive chunks share exactly the specified
50-character overlap, and no chunk exceeds the configured maximum size
of 400 characters. -/
theorem split_text_covers_overlaps_bounded (s : List Char)
    (h : 400 < s.length) :
    joinOverlap 50 (split_text getTextSplitter s) = s ∧
    (∀ c ∈ split_text getTextSplitter s, c.length ≤ 400) ∧
    chkOverlap 50 (split_text getTextSplitter s) = true := by
  have hb : s.length ≤ 350 * s.length + 400 := by omega
  exact ⟨splitText_join s.length s hb, splitText_size s.length s hb,
    splitText_chkOverlap s.length s hb⟩

theorem split_text_covers_overlaps_bounded_witness :
    400 < (List.replicate 401 'a').length ∧
    (joinOverlap 50 (split_text getTextSplitter (List.replicate 401 'a'))
        = List.replicate 401 'a' ∧
      (∀ c ∈ split_text getTextSplitter (List.replicate 401 'a'),
        c.length ≤ 400) ∧
      chkOverlap 50 (split_text getTextSplitter (List.replicate 401 'a'))
        = true) :=
  ⟨by decide, split_text_covers_overlaps_bounded _ (by decide)⟩

/-- Claim C5: the whitespace normalization `clean_text` is idempotent. -/
theorem clean_text_idempotent (s : List Char) :
    clean_text (clean_text s) = clean_text s := by
  rw [clean_text_eq_cleanSpec (clean_text s)]
  show joinWords (wordsOf (clean_text s)) = clean_text s
  rw [wordsOf_clean_text, clean_text_eq_cleanSpec s]
  rfl

/-- Claim C6: `clean_text` replaces every maximal run of whitespace with
a single space and trims both ends — its output is exactly the maximal
non-whitespace runs joined by single spaces — and `create_chunks`
normalizes the text of every loaded page before splitting: every chunk
it produces is a chunk of the `clean_text` of one of the loaded pages
and carries that page's metadata. -/
theorem clean_text_spec_and_create_chunks :
    (∀ s : List Char, clean_text s = cleanSpec s) ∧
    (∀ (load : String → Except PyError (List Document)) (fp : String)
        (docs chs : List Document) (ch : Document),
      load ("resources/" ++ fp) = .ok docs →
      create_chunks load fp = .ok chs → ch ∈ chs →
      ∃ d ∈ docs, ch.metadata = d.metadata ∧
        ch.page_content ∈ split_text getTextSplitter (clean_text d.page_content)) := by
  constructor
  · exact clean_text_eq_cleanSpec
  · intro load fp docs chs ch hload hcc hmem
    simp only [create_chunks, hload] at hcc
    have hchs : chs = split_documents getTextSplitter
        (docs.map fun d => { d with page_content := clean_text d.page_content }) := by
      simpa using hcc.symm
    subst hchs
    simp only [split_documents, List.mem_flatten, List.mem_map] at hmem
    obtain ⟨l, ⟨d', hd', hl⟩, hch⟩ := hmem
    obtain ⟨d, hd, hdd⟩ := hd'
    subst hdd
    subst hl
    simp only [List.mem_map] at hch
    obtain ⟨c, hc, hchc⟩ := hch
    subst hchc
    exact ⟨d, hd, rfl, hc⟩

/-- A concrete loaded page used by the chunking witnesses. -/
def pageA : Document :=
  { page_content := "hello   world".toList,
    metadata := { title := "icyco.pdf", page_label := "1" } }

/-- A loader that returns the single page `pageA` for every path. -/
def loadA : String → Except PyError (List Document) := fun _ => .ok [pageA]

/-- The chunk produced from `pageA` after normalization. -/
def chunkA : Document :=
  { page_content := "hello world".toList,
    metadata := { title := "icyco.pdf", page_label := "1" } }

theorem clean_text_spec_and_create_chunks_witness :
    clean_text "  a \t b ".toList = cleanSpec "  a \t b ".toList ∧
    (loadA ("resources/" ++ "icyco.pdf") = .ok [pageA] ∧
     create_chunks loadA "icyco.pdf" = .ok [chunkA] ∧
     ∃ d ∈ [pageA], chunkA.metadata = d.metadata ∧
       chunkA.page_content ∈ split_text getTextSplitter (clean_text d.page_content)) :=
  ⟨clean_text_spec_and_create_chunks.1 _,
   ⟨rfl, rfl,
    clean_text_spec_and_create_chunks.2 loadA "icyco.pdf" [pageA] [chunkA]
      chunkA rfl rfl (List.mem_singleton_self _)⟩⟩

/-! ## Claims C7, C8, C10 -/

/-- Claim C7 (amended): for every context and question and every
brace-free chat-history string, the assembled prompt contains all three
as substrings in the template's fixed order — context first, then chat
history, then question. -/
theorem prompt_contains_all_in_order (ctx hist q : List Char)
    (h : braceFree hist = true) :
    ∃ prompt,
      pyFormat (getPromptTemplate hist).template ctx q = .ok prompt ∧
      containsInOrder3 prompt ctx hist q :=
  ⟨_, pyFormat_template ctx hist q h,
    ⟨tmplHead.toList, tmplMid1.toList, tmplMid2.toList, tmplTail.toList, rfl⟩⟩

theorem prompt_contains_all_in_order_witness :
    braceFree "user: hi assistant: hello".toList = true ∧
    ∃ prompt,
      pyFormat (getPromptTemplate "user: hi assistant: hello".toList).template
          "some context".toList "what flavors?".toList = .ok prompt ∧
      containsInOrder3 prompt "some context".toList
        "user: hi assistant: hello".toList "what flavors?".toList :=
  ⟨by decide, prompt_contains_all_in_order _ _ _ (by decide)⟩

/-- Claim C7 as stated — quantified over every chat-history string — is
false: with chat history "\x7boops\x7d" the `str.format` call raises
`KeyError("oops")`, so no prompt is assembled at all. -/
theorem prompt_contains_all_in_order_cex :
    ¬ ∃ prompt,
      pyFormat (getPromptTemplate "{oops}".toList).template "c".toList
          "q".toList = .ok prompt ∧
      containsInOrder3 prompt "c".toList "{oops}".toList "q".toList := by
  rintro ⟨p, hp, -⟩
  have hfmt : pyFormat (getPromptTemplate "{oops}".toList).template "c".toList
      "q".toList = .error (.keyError "oops".toList) := by
    show fmtAux "c".toList "q".toList none
      (getPromptTemplate "{oops}".toList).template = _
    simp only [getPromptTemplate]
    rw [fmtAux_literal _ _ tmplHead.toList _ (by decide), fmtAux_context,
      fmtAux_literal _ _ tmplMid1.toList _ (by decide)]
    rw [show fmtAux "c".toList "q".toList none ("{oops}".toList ++ (tmplMid2.toList ++ ("{question}".toList ++ tmplTail.toList))) = .error (.keyError "oops".toList) from rfl]
    rfl
  rw [hfmt] at hp
  exact Except.noConfusion hp

/-- Claim C10 (amended): the template returned by `getPromptTemplate`
declares exactly the two input variables context and question; the chat
history is interpolated once at construction time as a fixed segment of
the template string; and, provided the history contains no braces, every
formatted prompt embeds that same fixed history segment between fixed
surroundings, whatever context and question values are supplied. -/
theorem template_two_vars_fixed_history (hist ctx q : List Char)
    (h : braceFree hist = true) :
    (getPromptTemplate hist).input_variables = ["context", "question"] ∧
    (getPromptTemplate hist).template
      = tmplHead.toList ++ ("{context}".toList ++ (tmplMid1.toList ++ (hist ++
          (tmplMid2.toList ++ ("{question}".toList ++ tmplTail.toList))))) ∧
    pyFormat (getPromptTemplate hist).template ctx q
      = .ok (tmplHead.toList ++ (ctx ++ (tmplMid1.toList ++ (hist ++
          (tmplMid2.toList ++ (q ++ tmplTail.toList)))))) :=
  ⟨rfl, rfl, pyFormat_template ctx hist q h⟩

theorem template_two_vars_fixed_history_witness :
    braceFree "hi there".toList = true ∧
    ((getPromptTemplate "hi there".toList).input_variables
        = ["context", "question"] ∧
     (getPromptTemplate "hi there".toList).template
        = tmplHead.toList ++ ("{context}".toList ++ (tmplMid1.toList ++
            ("hi there".toList ++ (tmplMid2.toList ++
              ("{question}".toList ++ tmplTail.toList))))) ∧
     pyFormat (getPromptTemplate "hi there".toList).template "ctx".toList
          "q?".toList
        = .ok (tmplHead.toList ++ ("ctx".toList ++ (tmplMid1.toList ++
            ("hi there".toList ++ (tmplMid2.toList ++
              ("q?".toList ++ tmplTail.toList))))))) :=
  ⟨by decide,
   template_two_vars_fixed_history "hi there".toList "ctx".toList "q?".toList
     (by decide)⟩

/-- Claim C10 as stated is false for a chat history that itself contains
a format placeholder: with history "\x7bquestion\x7d" the formatted prompt does
not keep the interpolated history segment fixed — the question value is
substituted into the history position as well. -/
theorem template_two_vars_fixed_history_cex :
    pyFormat (getPromptTemplate "{question}".toList).template "c".toList
        "q1".toList
      ≠ .ok (tmplHead.toList ++ ("c".toList ++ (tmplMid1.toList ++
          ("{question}".toList ++ (tmplMid2.toList ++
            ("q1".toList ++ tmplTail.toList)))))) := by
  have hfmt : pyFormat (getPromptTemplate "{question}".toList).template
      "c".toList "q1".toList
      = .ok (tmplHead.toList ++ ("c".toList ++ (tmplMid1.toList ++
          ("q1".toList ++ (tmplMid2.toList ++
            ("q1".toList ++ tmplTail.toList)))))) := by
    show fmtAux "c".toList "q1".toList none
      (getPromptTemplate "{question}".toList).template = _
    simp only [getPromptTemplate]
    rw [fmtAux_literal _ _ tmplHead.toList _ (by decide), fmtAux_context,
      fmtAux_literal _ _ tmplMid1.toList _ (by decide), fmtAux_question,
      fmtAux_literal _ _ tmplMid2.toList _ (by decide), fmtAux_question,
      fmtAux_literal_nil _ _ tmplTail.toList (by decide)]
    simp [Except.map]
  rw [hfmt]
  intro h
  simp only [Except.ok.injEq] at h
  have h1 := List.append_cancel_left h
  have h2 := List.append_cancel_left h1
  have h3 := List.append_cancel_left h2
  exact absurd h3 (by decide)

/-- Claim C8: through the chain built by `createRagChain` the retriever
is asked for exactly `k = 3` nearest chunks, and the chain's result
contains the generated answer together with the retrieved source chunks
(`return_source_documents = True`). -/
theorem rag_chain_three_chunks_with_sources (llm : List Char → List Char)
    (vs : VectorStoreHandle) (hist : List Char)
    (nearest : String → Nat → List Char → List Document) (q : List Char)
    (h : braceFree hist = true) :
    (createRagChain llm vs (getPromptTemplate hist)).k = 3 ∧
    (createRagChain llm vs (getPromptTemplate hist)).return_source_documents
      = true ∧
    runRagChain (createRagChain llm vs (getPromptTemplate hist)) nearest q
      = .ok (Response.mk
          (llm (tmplHead.toList ++
            (joinContext ((nearest vs.index_name 3 q).map Document.page_content) ++
              (tmplMid1.toList ++ (hist ++ (tmplMid2.toList ++
                (q ++ tmplTail.toList)))))))
          (nearest vs.index_name 3 q)) := by
  refine ⟨rfl, rfl, ?_⟩
  simp only [runRagChain, createRagChain]
  rw [pyFormat_template
    (joinContext ((nearest vs.index_name 3 q).map Document.page_content))
    hist q h]

/-- A stub LLM used by the chain witness. -/
def llmA : List Char → List Char := fun _ => "answer".toList

/-- A stub similarity search returning `k` copies of `chunkA`. -/
def nearestA : String → Nat → List Char → List Document :=
  fun _ k _ => List.replicate k chunkA

theorem rag_chain_three_chunks_with_sources_witness :
    braceFree "hi".toList = true ∧
    ((createRagChain llmA { index_name := "icyco-index" }
        (getPromptTemplate "hi".toList)).k = 3 ∧
     (createRagChain llmA { index_name := "icyco-index" }
        (getPromptTemplate "hi".toList)).return_source_documents = true ∧
     runRagChain (createRagChain llmA { index_name := "icyco-index" }
          (getPromptTemplate "hi".toList)) nearestA "q?".toList
       = .ok (Response.mk
           (llmA (tmplHead.toList ++
             (joinContext ((nearestA (VectorStoreHandle.mk "icyco-index").index_name 3 "q?".toList).map Document.page_content) ++
               (tmplMid1.toList ++ ("hi".toList ++ (tmplMid2.toList ++
                 ("q?".toList ++ tmplTail.toList)))))))
           (nearestA (VectorStoreHandle.mk "icyco-index").index_name 3 "q?".toList))) :=
  ⟨by decide,
   rag_chain_three_chunks_with_sources llmA { index_name := "icyco-index" }
     "hi".toList nearestA "q?".toList (by decide)⟩
